/-
  Verification of the todo-app core (schema, query layer, validation,
  request handlers) against its natural-language specification.

  The embedding models the relational store as explicit lists of rows
  (todos, categories, todo_categories) and each query-layer function from
  src/lib/db/queries.ts as a pure function over that state.  Timestamps
  are integers; uuids are strings.  Fallible operations return
  `Except String` paired with the (possibly mutated) state, mirroring the
  source's try/catch blocks, which re-throw a generic message but do not
  roll back earlier statements.
-/
import Mathlib

deriving instance DecidableEq for Except

namespace TodoApp

/-- A row of the `todos` table (schema.ts). -/
structure Todo where
  id : String
  user_id : String
  title : String
  description : Option String
  is_completed : Bool
  priority : Nat
  due_date : Option Int
  created_at : Int
  updated_at : Int
deriving Repr, DecidableEq

/-- A row of the `categories` table (schema.ts). -/
structure Category where
  id : String
  user_id : String
  name : String
  color : String
  created_at : Int
deriving Repr, DecidableEq

/-- A row of the `todo_categories` junction table (schema.ts); its primary
key is the pair (todo_id, category_id). -/
structure TodoCategory where
  todo_id : String
  category_id : String
  created_at : Int
deriving Repr, DecidableEq

/-- The relational state: the three tables the claims are about. -/
structure DB where
  todos : List Todo
  categories : List Category
  todoCategories : List TodoCategory
deriving Repr, DecidableEq

/-- Boolean row predicate for `and(eq(todos.id, todoId), eq(todos.user_id, userId))`. -/
def todoMatch (todoId userId : String) (t : Todo) : Bool :=
  t.id == todoId && t.user_id == userId

/-- Boolean row predicate for `and(eq(categories.id, categoryId), eq(categories.user_id, userId))`. -/
def catMatch (categoryId userId : String) (c : Category) : Bool :=
  c.id == categoryId && c.user_id == userId

/-- queries.ts `getTodoById`: select where id and user_id match, limit 1,
`result[0] || null`. -/
def getTodoById (db : DB) (todoId userId : String) : Option Todo :=
  (db.todos.filter (todoMatch todoId userId)).head?

/-- queries.ts `getCategoryById`: select where id and user_id match, limit 1. -/
def getCategoryById (db : DB) (categoryId userId : String) : Option Category :=
  (db.categories.filter (catMatch categoryId userId)).head?

/-- The partial update payload of queries.ts `updateTodo`
(`Partial<Omit<NewTodo, "user_id" | "created_at">>`); an outer `none`
means the field is absent, the inner Option of nullable columns is the
SQL null. -/
structure TodoUpdate where
  title : Option String := none
  description : Option (Option String) := none
  is_completed : Option Bool := none
  priority : Option Nat := none
  due_date : Option (Option Int) := none
deriving Repr, DecidableEq

/-- Effect of drizzle's `.set({...data, updated_at: new Date()})` on one row. -/
def applyTodoUpdate (u : TodoUpdate) (now : Int) (t : Todo) : Todo :=
  { t with
    title := u.title.getD t.title
    description := u.description.getD t.description
    is_completed := u.is_completed.getD t.is_completed
    priority := u.priority.getD t.priority
    due_date := u.due_date.getD t.due_date
    updated_at := now }

/-- queries.ts `updateTodo`: update rows matching id and user_id, setting the
given fields plus `updated_at`, returning the updated rows; the function
yields `result[0] || null` and the new state. -/
def updateTodo (db : DB) (todoId userId : String) (u : TodoUpdate) (now : Int) :
    Option Todo × DB :=
  let updatedRows := (db.todos.filter (todoMatch todoId userId)).map (applyTodoUpdate u now)
  let todos' := db.todos.map fun t =>
    if todoMatch todoId userId t then applyTodoUpdate u now t else t
  (updatedRows.head?, { db with todos := todos' })

/-- queries.ts `deleteTodo`: delete rows matching id and user_id, returning
whether any row was deleted; the schema's `onDelete: "cascade"` on
`todo_categories.todo_id` removes the junction rows of deleted todos. -/
def deleteTodo (db : DB) (todoId userId : String) : Bool × DB :=
  let deleted := db.todos.filter (todoMatch todoId userId)
  let remaining := db.todos.filter fun t => !(todoMatch todoId userId t)
  let deletedIds := deleted.map Todo.id
  let tcs := db.todoCategories.filter fun tc => !(deletedIds.contains tc.todo_id)
  (decide (deleted.length > 0), { db with todos := remaining, todoCategories := tcs })

/-- The partial update payload of queries.ts `updateCategory`
(`Partial<Omit<NewCategory, "user_id" | "created_at">>`). -/
structure CategoryUpdate where
  name : Option String := none
  color : Option String := none
deriving Repr, DecidableEq

/-- Effect of drizzle's `.set(data)` on one category row (no timestamp refresh). -/
def applyCategoryUpdate (u : CategoryUpdate) (c : Category) : Category :=
  { c with name := u.name.getD c.name, color := u.color.getD c.color }

/-- queries.ts `updateCategory`: update rows matching id and user_id,
returning `result[0] || null` and the new state. -/
def updateCategory (db : DB) (categoryId userId : String) (u : CategoryUpdate) :
    Option Category × DB :=
  let updatedRows := (db.categories.filter (catMatch categoryId userId)).map (applyCategoryUpdate u)
  let categories' := db.categories.map fun c =>
    if catMatch categoryId userId c then applyCategoryUpdate u c else c
  (updatedRows.head?, { db with categories := categories' })

/-- queries.ts `deleteCategory`: delete rows matching id and user_id; the
schema's `onDelete: "cascade"` on `todo_categories.category_id` removes the
junction rows of deleted categories.  Todos are never touched. -/
def deleteCategory (db : DB) (categoryId userId : String) : Bool × DB :=
  let deleted := db.categories.filter (catMatch categoryId userId)
  let remaining := db.categories.filter fun c => !(catMatch categoryId userId c)
  let deletedIds := deleted.map Category.id
  let tcs := db.todoCategories.filter fun tc => !(deletedIds.contains tc.category_id)
  (decide (deleted.length > 0), { db with categories := remaining, todoCategories := tcs })

/-- Sort fields accepted by queries.ts `getUserTodos`. -/
inductive SortField where
  | due_date | priority | created_at | title
deriving Repr, DecidableEq

/-- Sort directions accepted by queries.ts `getUserTodos`. -/
inductive SortDir where
  | asc | desc
deriving Repr, DecidableEq

/-- The optional `sort` argument of `getUserTodos`. -/
structure SortSpec where
  field : SortField
  direction : SortDir
deriving Repr, DecidableEq

/-- Ascending comparison on one todo column, modelling Postgres `ORDER BY col ASC`
(nulls last, Postgres's default for ascending order; only `due_date` is nullable). -/
def ascLe : SortField → Todo → Todo → Bool
  | .due_date, a, b =>
    match a.due_date, b.due_date with
    | none, none => true
    | none, some _ => false
    | some _, none => true
    | some x, some y => decide (x ≤ y)
  | .priority, a, b => decide (a.priority ≤ b.priority)
  | .created_at, a, b => decide (a.created_at ≤ b.created_at)
  | .title, a, b => decide (a.title ≤ b.title)

/-- `ORDER BY col ASC` / `ORDER BY col DESC` as a boolean order on rows
(descending is the reverse of ascending, giving nulls first on descending,
Postgres's default). -/
def sortLe (f : SortField) (d : SortDir) (a b : Todo) : Bool :=
  match d with
  | .asc => ascLe f a b
  | .desc => ascLe f b a

/-- The `ORDER BY` applied by `getUserTodos`, modelled as a sort of the
selected rows by `sortLe`. -/
def sortTodos (f : SortField) (d : SortDir) (l : List Todo) : List Todo :=
  l.insertionSort fun a b => sortLe f d a b = true

/-- The optional `filters` argument of queries.ts `getUserTodos`. -/
structure TodoFilters where
  isCompleted : Option Bool := none
  priority : Option Nat := none
  categoryId : Option String := none
  search : Option String := none
deriving Repr, DecidableEq

/-- JS `String.prototype.includes`, used to model SQL `LIKE '%s%'`. -/
def strContains (hay needle : String) : Bool :=
  decide (needle.data <:+: hay.data)

/-- The conjunction of conditions built by `getUserTodos` (owner scoping plus
the optional completion, priority and search filters; `filters?.search` is
truthiness-tested in the source, so an empty string adds no condition;
a SQL `LIKE` on a NULL description does not match). -/
def todoCond (userId : String) (f : TodoFilters) (t : Todo) : Bool :=
  t.user_id == userId
  && (match f.isCompleted with
      | none => true
      | some b => t.is_completed == b)
  && (match f.priority with
      | none => true
      | some p => t.priority == p)
  && (match f.search with
      | none => true
      | some s =>
        if s == "" then true
        else strContains t.title s
          || (match t.description with
              | some d => strContains d s
              | none => false))

/-- queries.ts `getUserTodos`: select todos where the conjunction of
conditions holds, order by the requested column (default `created_at`
descending), then — if a category filter is present (truthiness-tested) —
fetch the todo ids associated with that category id (with no ownership
check on the category) and keep only those todos. -/
def getUserTodos (db : DB) (userId : String) (f : TodoFilters) (sort : Option SortSpec) :
    List Todo :=
  let base := db.todos.filter (todoCond userId f)
  let field := match sort with | some s => s.field | none => .created_at
  let dir := match sort with | some s => s.direction | none => .desc
  let sorted := sortTodos field dir base
  match f.categoryId with
  | none => sorted
  | some cid =>
    if cid == "" then sorted
    else
      let todoIds := (db.todoCategories.filter fun tc => tc.category_id == cid).map
        TodoCategory.todo_id
      sorted.filter fun t => todoIds.contains t.id

/-- queries.ts `getUserCategories`: select categories of the user, ordered by
name ascending. -/
def getUserCategories (db : DB) (userId : String) : List Category :=
  (db.categories.filter fun c => c.user_id == userId).insertionSort
    fun a b => a.name ≤ b.name

/-- The payload of queries.ts `getTodoWithCategories` (the todo's fields plus
its joined category rows). -/
structure TodoWithCategories where
  todo : Todo
  categories : List Category
deriving Repr, DecidableEq

/-- queries.ts `getTodoWithCategories`: `getTodoById`, then an inner join of
the todo's junction rows against the categories table. -/
def getTodoWithCategories (db : DB) (todoId userId : String) :
    Option TodoWithCategories :=
  match getTodoById db todoId userId with
  | none => none
  | some t =>
    let cats := (db.todoCategories.filter fun tc => tc.todo_id == todoId).flatMap
      fun tc => db.categories.filter fun c => c.id == tc.category_id
    some ⟨t, cats⟩

/-- The insert payload of queries.ts `createTodo` as built by the POST
handler (`NewTodo` without the database-generated columns). -/
structure NewTodoData where
  user_id : String
  title : String
  description : Option String
  priority : Nat
  due_date : Option Int
  is_completed : Bool
deriving Repr, DecidableEq

/-- queries.ts `createTodo`: insert a todo row; `id`, `created_at` and
`updated_at` come from the database defaults (a fresh uuid and the clock). -/
def createTodo (db : DB) (d : NewTodoData) (newId : String) (now : Int) : Todo × DB :=
  let t : Todo :=
    { id := newId, user_id := d.user_id, title := d.title
      description := d.description, is_completed := d.is_completed
      priority := d.priority, due_date := d.due_date
      created_at := now, updated_at := now }
  (t, { db with todos := db.todos ++ [t] })

/-- Drizzle's `insert(todoCategories).values(...).onConflictDoNothing()`:
rows are inserted in order, skipping any pair already present (the junction
table's primary key is `(todo_id, category_id)`). -/
def insertPairs (now : Int) (tcs : List TodoCategory) (pairs : List (String × String)) :
    List TodoCategory :=
  pairs.foldl
    (fun acc p =>
      if acc.any (fun tc => tc.todo_id == p.1 && tc.category_id == p.2) then acc
      else acc ++ [{ todo_id := p.1, category_id := p.2, created_at := now }])
    tcs

/-- A `try { ... } catch { throw new Error(msg) }` block around a sequence of
statements: the state reached so far is kept (nothing is rolled back), but
any failure is re-thrown with the block's own generic message. -/
def catchWrap (msg : String) : Except String Unit × DB → Except String Unit × DB
  | (.ok _, d) => (.ok (), d)
  | (.error _, d) => (.error msg, d)

/-- queries.ts `addCategoriesToTodo`: verify the todo belongs to the user,
verify every supplied category id is among the user's category ids, then
insert the associations ignoring duplicates; the surrounding catch re-throws
every failure as "Failed to add categories to todo" without undoing
anything. -/
def addCategoriesToTodo (db : DB) (todoId : String) (categoryIds : List String)
    (userId : String) (now : Int) : Except String Unit × DB :=
  let body : Except String Unit × DB :=
    match getTodoById db todoId userId with
    | none => (.error "Todo not found or access denied", db)
    | some _ =>
      let validCategoryIds := (getUserCategories db userId).map Category.id
      let invalidCategories := categoryIds.filter fun cid => !(validCategoryIds.contains cid)
      if invalidCategories.length > 0 then
        (.error "One or more categories not found or access denied", db)
      else
        let inserted := insertPairs now db.todoCategories
          (categoryIds.map (fun cid => (todoId, cid)))
        (.ok (), { db with todoCategories := inserted })
  catchWrap "Failed to add categories to todo" body

/-- queries.ts `replaceTodoCategories`: verify the todo belongs to the user,
delete all existing associations of the todo, then (only when the list is
non-empty) call `addCategoriesToTodo`; the catch re-throws every failure as
"Failed to replace todo categories" without undoing the deletion. -/
def replaceTodoCategories (db : DB) (todoId : String) (categoryIds : List String)
    (userId : String) (now : Int) : Except String Unit × DB :=
  let body : Except String Unit × DB :=
    match getTodoById db todoId userId with
    | none => (.error "Todo not found or access denied", db)
    | some _ =>
      let db1 : DB := { db with todoCategories :=
        db.todoCategories.filter fun tc => !(tc.todo_id == todoId) }
      if categoryIds.length > 0 then
        addCategoriesToTodo db1 todoId categoryIds userId now
      else
        (.ok (), db1)
  catchWrap "Failed to replace todo categories" body

/-- A value thrown inside a handler: a Zod validation error (with its
per-field issues), a JS `Error` (with its message), or any other throwable. -/
inductive Thrown where
  | zodError (issues : List (String × String))
  | error (message : String)
  | other
deriving Repr, DecidableEq

/-- The JSON error envelope built by api-response.ts `errorResponse`
(`{error, code, validation?}`). -/
structure ErrorBody where
  error : String
  code : Nat
  validation : List (String × String) := []
deriving Repr, DecidableEq

/-- api-response.ts `handleError`: Zod errors become a 400 "Validation
failed" with per-field details; `Error` messages are classified by
substring ("not found" → 404, "unauthorized"/"No user found" → 401,
"forbidden" → 403); any other `Error` message is returned as-is with
status 500; non-`Error` throwables become a generic 500. -/
def handleError : Thrown → ErrorBody
  | .zodError issues => { error := "Validation failed", code := 400, validation := issues }
  | .error msg =>
    if strContains msg "not found" then
      { error := "Resource not found", code := 404 }
    else if strContains msg "unauthorized" || strContains msg "No user found" then
      { error := "Unauthorized access", code := 401 }
    else if strContains msg "forbidden" then
      { error := "Access forbidden", code := 403 }
    else
      { error := msg, code := 500 }
  | .other => { error := "An unexpected error occurred", code := 500 }

/-- validations/todo.ts `priorityEnum`: `z.enum(['1','2','3','4'])`
string-coerced to an integer. -/
def parsePriority : String → Option Nat
  | "1" => some 1
  | "2" => some 2
  | "3" => some 3
  | "4" => some 4
  | _ => none

/-- A PATCH body after JSON parsing, restricted to the keys
`updateTodoSchema` recognizes (unrecognized keys are stripped by Zod);
an outer `none` means the key is absent, and `dueDate`'s inner Option is
JSON null.  Datetime strings are modelled by their parsed timestamps. -/
structure UpdateBody where
  title : Option String := none
  description : Option String := none
  priority : Option String := none
  dueDate : Option (Option Int) := none
  isCompleted : Option Bool := none
  categoryIds : Option (List String) := none
deriving Repr, DecidableEq

/-- The output of a successful `updateTodoSchema.parse` (priority coerced). -/
structure ValidUpdate where
  title : Option String
  description : Option String
  priority : Option Nat
  dueDate : Option (Option Int)
  isCompleted : Option Bool
  categoryIds : Option (List String)
deriving Repr, DecidableEq

/-- The number of recognized keys present in the parsed object — what the
schema's `.refine((data) => Object.keys(data).length > 0)` counts. -/
def providedCount (b : UpdateBody) : Nat :=
  (if b.title.isSome then 1 else 0) + (if b.description.isSome then 1 else 0)
  + (if b.priority.isSome then 1 else 0) + (if b.dueDate.isSome then 1 else 0)
  + (if b.isCompleted.isSome then 1 else 0) + (if b.categoryIds.isSome then 1 else 0)

/-- Per-field issues raised by `updateTodoSchema`'s field validators
(title length bounds, priority enum); the typed fields (`dueDate`,
`isCompleted`, `categoryIds`) are well-formed by construction here. -/
def updateFieldIssues (b : UpdateBody) : List (String × String) :=
  (match b.title with
   | none => []
   | some t =>
     if t.length < 1 then [("title", "Title is required")]
     else if t.length > 200 then [("title", "Title must be 200 characters or less")]
     else [])
  ++ (match b.priority with
      | none => []
      | some p => if (parsePriority p).isSome then [] else [("priority", "Invalid enum value")])

/-- validations/todo.ts `updateTodoSchema.parse`: field validators run
first; if they pass, the `.refine` rejects an object with no recognized
key with "At least one field must be provided for update". -/
def updateTodoSchemaParse (b : UpdateBody) : Except Thrown ValidUpdate :=
  if updateFieldIssues b ≠ [] then
    .error (.zodError (updateFieldIssues b))
  else if providedCount b = 0 then
    .error (.zodError [("", "At least one field must be provided for update")])
  else
    .ok
      { title := b.title, description := b.description
        priority := b.priority.bind parsePriority
        dueDate := b.dueDate, isCompleted := b.isCompleted
        categoryIds := b.categoryIds }

/-- A POST body after JSON parsing, restricted to the keys
`createTodoSchema` recognizes; datetime strings are modelled by their
parsed timestamps. -/
structure CreateBody where
  title : String
  description : Option String := none
  priority : Option String := none
  dueDate : Option Int := none
  categoryIds : Option (List String) := none
deriving Repr, DecidableEq

/-- The output of a successful `createTodoSchema.parse`. -/
structure ValidCreate where
  title : String
  description : Option String
  priority : Option Nat
  dueDate : Option Int
  categoryIds : Option (List String)
deriving Repr, DecidableEq

/-- Per-field issues raised by `createTodoSchema`'s field validators. -/
def createFieldIssues (b : CreateBody) : List (String × String) :=
  (if b.title.length < 1 then [("title", "Title is required")]
   else if b.title.length > 200 then [("title", "Title must be 200 characters or less")]
   else [])
  ++ (match b.priority with
      | none => []
      | some p => if (parsePriority p).isSome then [] else [("priority", "Invalid enum value")])

/-- validations/todo.ts `createTodoSchema.parse`. -/
def createTodoSchemaParse (b : CreateBody) : Except Thrown ValidCreate :=
  if createFieldIssues b ≠ [] then
    .error (.zodError (createFieldIssues b))
  else
    .ok
      { title := b.title, description := b.description
        priority := b.priority.bind parsePriority
        dueDate := b.dueDate, categoryIds := b.categoryIds }

/-- A handler's JSON reply: a success envelope carrying the todo (with its
categories, or the bare row on the unreachable join fallback) and the HTTP
status, or an error envelope. -/
inductive HandlerResponse where
  | okTodoWithCats (t : TodoWithCategories) (status : Nat)
  | okTodoOnly (t : Todo) (status : Nat)
  | failure (e : ErrorBody)
deriving Repr, DecidableEq

/-- The update payload the PATCH handler assembles from the validated body
(`description` and `isCompleted` can only be set to non-null values by the
schema; a present `dueDate` may be null to clear the column). -/
def buildUpdateData (v : ValidUpdate) : TodoUpdate :=
  { title := v.title
    description := v.description.map some
    priority := v.priority
    due_date := v.dueDate
    is_completed := v.isCompleted }

/-- app/api/todos/[id]/route.ts `PATCH` after authentication: look up the
todo (404 when absent or foreign), parse the body with `updateTodoSchema`
(Zod errors reach `handleError` through the catch), reject a non-null past
due date unless the todo is already completed, update the row, replace the
categories when `categoryIds` is present (failures reach `handleError`),
and reply with the todo joined to its categories. -/
def PATCH (db : DB) (idStr userId : String) (body : UpdateBody) (now : Int) :
    HandlerResponse × DB :=
  match getTodoById db idStr userId with
  | none => (.failure { error := "Todo not found", code := 404 }, db)
  | some existingTodo =>
    match updateTodoSchemaParse body with
    | .error thrown => (.failure (handleError thrown), db)
    | .ok v =>
      if (match v.dueDate with
          | some (some d) => !existingTodo.is_completed && decide (d < now)
          | _ => false) then
        (.failure { error := "Due date cannot be in the past", code := 400 }, db)
      else
        match updateTodo db idStr userId (buildUpdateData v) now with
        | (none, db1) => (.failure { error := "Failed to update todo", code := 500 }, db1)
        | (some updatedTodo, db1) =>
          let afterCats : Except String Unit × DB :=
            match v.categoryIds with
            | some cids => replaceTodoCategories db1 idStr cids userId now
            | none => (.ok (), db1)
          match afterCats with
          | (.error msg, db2) => (.failure (handleError (.error msg)), db2)
          | (.ok _, db2) =>
            match getTodoWithCategories db2 idStr userId with
            | some twc => (.okTodoWithCats twc 200, db2)
            | none => (.okTodoOnly updatedTodo 200, db2)

/-- The JS `x || y` default on the parsed priority (`validatedData.priority || 2`). -/
def priorityOrDefault : Option Nat → Nat
  | none => 2
  | some p => if p = 0 then 2 else p

/-- The JS `x || null` on the optional description
(`validatedData.description || null` turns an empty string into null). -/
def descriptionOrNull : Option String → Option String
  | none => none
  | some s => if s == "" then none else some s

/-- app/api/todos/route.ts `POST` after authentication: parse the body with
`createTodoSchema`, reject a supplied due date strictly before now with a
400, insert the todo (incomplete, priority defaulting to 2), replace its
categories when a non-empty `categoryIds` was supplied (failures reach
`handleError`), and reply 201 with the todo joined to its categories. -/
def POST (db : DB) (userId : String) (body : CreateBody) (now : Int) (newId : String) :
    HandlerResponse × DB :=
  match createTodoSchemaParse body with
  | .error thrown => (.failure (handleError thrown), db)
  | .ok v =>
    if (match v.dueDate with
        | some d => decide (d < now)
        | none => false) then
      (.failure { error := "Due date cannot be in the past", code := 400 }, db)
    else
      let created := createTodo db
        { user_id := userId, title := v.title
          description := descriptionOrNull v.description
          priority := priorityOrDefault v.priority
          due_date := v.dueDate, is_completed := false } newId now
      let newTodo := created.1
      let db1 := created.2
      let afterCats : Except String Unit × DB :=
        match v.categoryIds with
        | some cids =>
          if cids.length > 0 then replaceTodoCategories db1 newTodo.id cids userId now
          else (.ok (), db1)
        | none => (.ok (), db1)
      match afterCats with
      | (.error msg, db2) => (.failure (handleError (.error msg)), db2)
      | (.ok _, db2) =>
        match getTodoWithCategories db2 newTodo.id userId with
        | some twc => (.okTodoWithCats twc 201, db2)
        | none => (.okTodoOnly newTodo 201, db2)

/-- The number of association rows for a given (todo id, category id) pair
in the junction table. -/
def countPair (l : List TodoCategory) (T c : String) : Nat :=
  (l.filter fun tc => tc.todo_id == T && tc.category_id == c).length

/-- The state produced by a successful `replaceTodoCategories`: the todo's
associations deleted, then the supplied pairs inserted ignoring
duplicates. -/
def replacedState (db : DB) (todoId : String) (cids : List String) (now : Int) : DB :=
  { db with todoCategories := insertPairs now (db.todoCategories.filter fun tc => !(tc.todo_id == todoId)) (cids.map fun cid => (todoId, cid)) }

/-- A sample state: user u1 owns todo t1 (incomplete, future due date) and
category c1, with t1 associated to c1; user u2 owns todo t2 and category c2. -/
def sampleDB : DB :=
  { todos :=
      [ { id := "t1", user_id := "u1", title := "Buy milk", description := none
          is_completed := false, priority := 2, due_date := some 100
          created_at := 0, updated_at := 0 }
      , { id := "t2", user_id := "u2", title := "Other", description := none
          is_completed := false, priority := 3, due_date := none
          created_at := 1, updated_at := 1 } ]
    categories :=
      [ { id := "c1", user_id := "u1", name := "Work", color := "#0000ff", created_at := 0 }
      , { id := "c2", user_id := "u2", name := "Home", color := "#ff0000", created_at := 0 } ]
    todoCategories := [ { todo_id := "t1", category_id := "c1", created_at := 0 } ] }

/-- A typical raw driver failure message, matching none of the handler's
classification substrings. -/
def rawDbMessage : String := "connect ECONNREFUSED 10.0.0.5:5432"

/-- The todo row the POST handler inserts (id and timestamps from the
database defaults, priority and description after the JS `||` defaults,
completion false). -/
def postTodo (userId : String) (v : ValidCreate) (now : Int) (newId : String) : Todo :=
  { id := newId, user_id := userId, title := v.title
    description := descriptionOrNull v.description, is_completed := false
    priority := priorityOrDefault v.priority, due_date := v.dueDate
    created_at := now, updated_at := now }

/-- The sort field actually used (`sort?.field || "created_at"`). -/
def sortFieldOf : Option SortSpec → SortField
  | some s => s.field
  | none => .created_at

/-- The sort direction actually used (`sort?.direction || "desc"`). -/
def sortDirOf : Option SortSpec → SortDir
  | some s => s.direction
  | none => .desc

/-! ### Theorems -/

/-- Rows owned by another user never satisfy the owner-scoped condition. -/
theorem todoMatch_false {db : DB} {userA tid : String}
    (ht : ∀ t ∈ db.todos, t.id = tid → t.user_id ≠ userA) :
    ∀ t ∈ db.todos, todoMatch tid userA t = false := by
  intro t htm
  unfold todoMatch
  by_cases h1 : t.id = tid
  · have h2 := ht t htm h1
    simp [h1, h2]
  · simp [h1]

/-- Category version of `todoMatch_false`. -/
theorem catMatch_false {db : DB} {userA cid : String}
    (hc : ∀ c ∈ db.categories, c.id = cid → c.user_id ≠ userA) :
    ∀ c ∈ db.categories, catMatch cid userA c = false := by
  intro c hcm
  unfold catMatch
  by_cases h1 : c.id = cid
  · have h2 := hc c hcm h1
    simp [h1, h2]
  · simp [h1]

/-- C1.  Ownership isolation: when no todo row with the requested id is
owned by the requesting user (covering both a row owned by a different
user and a non-existent id, which are thereby indistinguishable), and
likewise for categories, `getTodoById`/`getCategoryById` return null,
`updateTodo`/`updateCategory` return null and leave the state untouched,
and `deleteTodo`/`deleteCategory` return false and leave the state
untouched — no other user's row is ever returned, modified or deleted. -/
theorem ownership_isolation (db : DB) (userA tid cid : String)
    (u : TodoUpdate) (cu : CategoryUpdate) (now : Int)
    (ht : ∀ t ∈ db.todos, t.id = tid → t.user_id ≠ userA)
    (hc : ∀ c ∈ db.categories, c.id = cid → c.user_id ≠ userA) :
    getTodoById db tid userA = none ∧
    updateTodo db tid userA u now = (none, db) ∧
    deleteTodo db tid userA = (false, db) ∧
    getCategoryById db cid userA = none ∧
    updateCategory db cid userA cu = (none, db) ∧
    deleteCategory db cid userA = (false, db) := by
  have hmt := todoMatch_false ht
  have hmc := catMatch_false hc
  have hfil : db.todos.filter (todoMatch tid userA) = [] :=
    List.filter_eq_nil_iff.mpr (fun a ha => by simp [hmt a ha])
  have hfilc : db.categories.filter (catMatch cid userA) = [] :=
    List.filter_eq_nil_iff.mpr (fun a ha => by simp [hmc a ha])
  refine ⟨?_, ?_, ?_, ?_, ?_, ?_⟩
  · simp [getTodoById, hfil]
  · have h2 : (db.todos.map fun t =>
        if todoMatch tid userA t then applyTodoUpdate u now t else t) = db.todos := by
      rw [List.map_congr_left (g := fun t => t) (fun t htm => by simp [hmt t htm])]
      exact List.map_id' _
    simp [updateTodo, hfil, h2]
  · have h3 : (db.todos.filter fun t => !(todoMatch tid userA t)) = db.todos :=
      List.filter_eq_self.mpr (fun a ha => by simp [hmt a ha])
    simp [deleteTodo, hfil, h3]
  · simp [getCategoryById, hfilc]
  · have h2 : (db.categories.map fun c =>
        if catMatch cid userA c then applyCategoryUpdate cu c else c) = db.categories := by
      rw [List.map_congr_left (g := fun c => c) (fun c hcm => by simp [hmc c hcm])]
      exact List.map_id' _
    simp [updateCategory, hfilc, h2]
  · have h3 : (db.categories.filter fun c => !(catMatch cid userA c)) = db.categories :=
      List.filter_eq_self.mpr (fun a ha => by simp [hmc a ha])
    simp [deleteCategory, hfilc, h3]

/-- Witness for C1: user u1 probing user u2's todo and category. -/
theorem ownership_isolation_witness :
    getTodoById sampleDB "t2" "u1" = none ∧
    updateTodo sampleDB "t2" "u1" { title := some "stolen" } 9 = (none, sampleDB) ∧
    deleteTodo sampleDB "t2" "u1" = (false, sampleDB) ∧
    getCategoryById sampleDB "c2" "u1" = none ∧
    updateCategory sampleDB "c2" "u1" { name := some "stolen" } = (none, sampleDB) ∧
    deleteCategory sampleDB "c2" "u1" = (false, sampleDB) :=
  ownership_isolation sampleDB "u1" "t2" "c2" { title := some "stolen" }
    { name := some "stolen" } 9 (by decide) (by decide)

/-- C2 counterexample.  In `sampleDB`, todo t1 (owned by u1) has one
existing association; replacing its categories with the foreign category
id c2 fails — but the existing association row is gone afterwards, and the
surfaced failure is the catch-all "Failed to replace todo categories"
message, not a "not found or access denied" condition: the claim that the
existing rows are left unchanged (verification before removal) is false. -/
theorem replace_counterexample :
    (replaceTodoCategories sampleDB "t1" ["c2"] "u1" 5).1
        = .error "Failed to replace todo categories" ∧
    (replaceTodoCategories sampleDB "t1" ["c2"] "u1" 5).2.todoCategories = [] ∧
    sampleDB.todoCategories ≠ [] := by decide

/-- C2 amended.  For a todo owned by the user, if any supplied category id
is not among the user's categories, `replaceTodoCategories` fails — the
inner "not found or access denied" message being re-wrapped by the catch
blocks into "Failed to replace todo categories" — and the todo's existing
association rows have already been deleted when the verification runs:
the state returned with the failure is the original one with every
association of the todo removed. -/
theorem replace_deletes_before_verifying (db : DB) (todoId userId bad : String)
    (cids : List String) (now : Int) (t : Todo)
    (hTodo : getTodoById db todoId userId = some t)
    (hbad : bad ∈ cids)
    (hnotown : bad ∉ (getUserCategories db userId).map Category.id) :
    replaceTodoCategories db todoId cids userId now
      = (.error "Failed to replace todo categories",
         { db with todoCategories :=
            db.todoCategories.filter fun tc => !(tc.todo_id == todoId) }) := by
  have hlen : 0 < cids.length := List.length_pos_of_mem hbad
  have hbadfil : bad ∈ cids.filter
      (fun c => !(((getUserCategories db userId).map Category.id).contains c)) :=
    List.mem_filter.mpr ⟨hbad, by simpa using hnotown⟩
  have hinvlen : 0 < (cids.filter
      (fun c => !(((getUserCategories db userId).map Category.id).contains c))).length :=
    List.length_pos_of_mem hbadfil
  have hTodo1 : getTodoById
      { db with todoCategories := db.todoCategories.filter fun tc => !(tc.todo_id == todoId) }
      todoId userId = some t := hTodo
  have hgc : getUserCategories
      { db with todoCategories := db.todoCategories.filter fun tc => !(tc.todo_id == todoId) }
      userId = getUserCategories db userId := rfl
  simp only [replaceTodoCategories, hTodo, if_pos hlen, addCategoriesToTodo, hTodo1,
    catchWrap, hgc]
  rw [if_pos hinvlen]

/-- Witness for C2 amended, instantiated at `sampleDB`. -/
theorem replace_deletes_before_verifying_witness :
    replaceTodoCategories sampleDB "t1" ["c2"] "u1" 5
      = (.error "Failed to replace todo categories",
         { sampleDB with todoCategories :=
            sampleDB.todoCategories.filter fun tc => !(tc.todo_id == "t1") }) :=
  replace_deletes_before_verifying sampleDB "t1" "u1" "c2" ["c2"] 5
    { id := "t1", user_id := "u1", title := "Buy milk", description := none,
      is_completed := false, priority := 2, due_date := some 100,
      created_at := 0, updated_at := 0 }
    (by decide) (by decide) (by decide)

/-- C3 counterexample.  The spec's own scenario: in `sampleDB`, todo t1 is
incomplete with a future due date (100); a PATCH at now = 50 setting
isCompleted = true and dueDate = -5 (in the past) is claimed to succeed,
but the handler rejects it with 400 "Due date cannot be in the past",
because the check reads the todo's existing completion state, not the
incoming isCompleted field. -/
theorem patch_completing_with_past_due_counterexample :
    PATCH sampleDB "t1" "u1" { isCompleted := some true, dueDate := some (some (-5)) } 50
      = (.failure { error := "Due date cannot be in the past", code := 400 }, sampleDB) := by
  decide

/-- C3 amended.  For an existing todo of the user that is not yet completed,
any PATCH supplying a non-null due date strictly in the past is rejected
with 400 "Due date cannot be in the past" and leaves the state unchanged —
even when the same payload sets isCompleted = true: the rule is applied on
the todo's existing completion state alone, so a past due date is accepted
only when the todo was already completed before the update. -/
theorem patch_past_due_rejected_by_existing_state (db : DB) (idStr userId : String)
    (body : UpdateBody) (now d : Int) (t : Todo) (v : ValidUpdate)
    (hTodo : getTodoById db idStr userId = some t)
    (hInc : t.is_completed = false)
    (hParse : updateTodoSchemaParse body = .ok v)
    (hDue : v.dueDate = some (some d))
    (hPast : d < now) :
    PATCH db idStr userId body now
      = (.failure { error := "Due date cannot be in the past", code := 400 }, db) := by
  simp only [PATCH, hTodo, hParse, hDue, hInc]
  simp [hPast]

/-- Witness for C3 amended: a PATCH that only moves the due date of an
incomplete todo into the past is rejected. -/
theorem patch_past_due_rejected_witness :
    PATCH sampleDB "t1" "u1" { isCompleted := some true, dueDate := some (some (-7)) } 42
      = (.failure { error := "Due date cannot be in the past", code := 400 }, sampleDB) :=
  patch_past_due_rejected_by_existing_state sampleDB "t1" "u1"
    { isCompleted := some true, dueDate := some (some (-7)) } 42 (-7)
    { id := "t1", user_id := "u1", title := "Buy milk", description := none,
      is_completed := false, priority := 2, due_date := some 100,
      created_at := 0, updated_at := 0 }
    { title := none, description := none, priority := none,
      dueDate := some (some (-7)), isCompleted := some true, categoryIds := none }
    (by decide) (by decide) (by decide) (by decide) (by decide)

/-- A pair is absent from the junction table iff the conflict probe of the
idempotent insert reports no hit. -/
theorem countPair_eq_zero_iff (s : List TodoCategory) (T c : String) :
    countPair s T c = 0
      ↔ s.any (fun tc => tc.todo_id == T && tc.category_id == c) = false := by
  simp [countPair, List.length_eq_zero, List.filter_eq_nil_iff, List.any_eq_false]

/-- Deleting all of a todo's associations leaves no row for any of its pairs. -/
theorem countPair_delete (l : List TodoCategory) (T c : String) :
    countPair (l.filter fun tc => !(tc.todo_id == T)) T c = 0 := by
  simp only [countPair, List.length_eq_zero, List.filter_eq_nil_iff, List.mem_filter]
  intro a ha
  obtain ⟨-, hneq⟩ := ha
  simp only [Bool.not_eq_true'] at hneq
  simp [hneq]

/-- Row count per pair after the conflict-ignoring insert of a todo's pair
list: a listed pair not already present ends with exactly one row; any
other pair keeps its previous count. -/
theorem countPair_insertPairs (T c : String) (now : Int) :
    ∀ (cids : List String) (s : List TodoCategory),
      countPair (insertPairs now s (cids.map fun cid => (T, cid))) T c
        = if c ∈ cids ∧ countPair s T c = 0 then 1 else countPair s T c := by
  intro cids
  induction cids with
  | nil =>
    intro s
    simp [insertPairs]
  | cons c' rest ih =>
    intro s
    have hstep : insertPairs now s ((c' :: rest).map fun cid => (T, cid))
        = insertPairs now
            (if s.any (fun tc => tc.todo_id == T && tc.category_id == c') then s
             else s ++ [{ todo_id := T, category_id := c', created_at := now }])
            (rest.map fun cid => (T, cid)) := by
      simp [insertPairs]
    rw [hstep]
    by_cases h : s.any (fun tc => tc.todo_id == T && tc.category_id == c') = true
    · rw [if_pos h, ih s]
      have hcp' : countPair s T c' ≠ 0 := by
        intro h0
        rw [(countPair_eq_zero_iff s T c').mp h0] at h
        exact Bool.false_ne_true h
      by_cases hc : c = c'
      · subst hc
        simp [hcp']
      · simp [List.mem_cons, hc]
    · have h' : s.any (fun tc => tc.todo_id == T && tc.category_id == c') = false :=
        Bool.eq_false_iff.mpr h
      rw [if_neg (by simp [h']), ih _]
      have hrow : ∀ x, countPair
          (s ++ [{ todo_id := T, category_id := c', created_at := now }]) T x
            = countPair s T x + (if x = c' then 1 else 0) := by
        intro x
        by_cases hx : x = c'
        · subst hx
          simp [countPair, List.filter_append]
        · have hbx : (c' == x) = false := beq_eq_false_iff_ne.mpr (fun hxx => hx hxx.symm)
          simp [countPair, List.filter_append, hbx, hx]
      by_cases hc : c = c'
      · subst hc
        have hcp0 : countPair s T c = 0 := (countPair_eq_zero_iff s T c).mpr h'
        rw [hrow c]
        simp [hcp0]
      · rw [hrow c]
        simp only [if_neg hc, Nat.add_zero]
        simp [List.mem_cons, hc]

/-- Successful normal form of `replaceTodoCategories`: when the todo belongs
to the user and every supplied category id is among the user's category
ids, the call succeeds and the todo's associations become the
conflict-ignoring insert of the supplied pairs over the emptied set. -/
theorem replace_ok (db : DB) (todoId userId : String) (cids : List String)
    (now : Int) (t : Todo)
    (hTodo : getTodoById db todoId userId = some t)
    (hcids : ∀ c ∈ cids, c ∈ (getUserCategories db userId).map Category.id) :
    replaceTodoCategories db todoId cids userId now
      = (.ok (), replacedState db todoId cids now) := by
  have hTodo1 : getTodoById
      { db with todoCategories := db.todoCategories.filter fun tc => !(tc.todo_id == todoId) }
      todoId userId = some t := hTodo
  have hgc : getUserCategories
      { db with todoCategories := db.todoCategories.filter fun tc => !(tc.todo_id == todoId) }
      userId = getUserCategories db userId := rfl
  have hinv : (cids.filter
      (fun c => !(((getUserCategories db userId).map Category.id).contains c))) = [] :=
    List.filter_eq_nil_iff.mpr (fun a ha => by simp [hcids a ha])
  cases cids with
  | nil =>
    simp only [replaceTodoCategories, hTodo, replacedState]
    simp [insertPairs, catchWrap]
  | cons c' rest =>
    have hlen : 0 < (c' :: rest).length := by simp
    simp only [replaceTodoCategories, hTodo, if_pos hlen, addCategoriesToTodo, hTodo1,
      hgc, catchWrap, replacedState]
    rw [if_neg (by rw [hinv]; simp)]

/-- C4.  Idempotence of replace-categories: for a todo owned by the user and
a list of category ids all owned by the user, two successive calls of
`replaceTodoCategories` with the same list both succeed and leave exactly
one association row for each (todo id, category id) pair of the list — and
none for any other category of that todo. -/
theorem replace_idempotent (db : DB) (todoId userId : String) (cids : List String)
    (now now2 : Int) (t : Todo)
    (hTodo : getTodoById db todoId userId = some t)
    (hcids : ∀ c ∈ cids, c ∈ (getUserCategories db userId).map Category.id) :
    ∃ db1 db2,
      replaceTodoCategories db todoId cids userId now = (.ok (), db1) ∧
      replaceTodoCategories db1 todoId cids userId now2 = (.ok (), db2) ∧
      ∀ c, countPair db2.todoCategories todoId c = if c ∈ cids then 1 else 0 := by
  have h1 := replace_ok db todoId userId cids now t hTodo hcids
  have hTodo1 : getTodoById (replacedState db todoId cids now) todoId userId = some t := hTodo
  have hcids1 : ∀ c ∈ cids,
      c ∈ (getUserCategories (replacedState db todoId cids now) userId).map Category.id := hcids
  have h2 := replace_ok _ todoId userId cids now2 t hTodo1 hcids1
  refine ⟨_, _, h1, h2, ?_⟩
  intro c
  show countPair (replacedState (replacedState db todoId cids now) todoId cids now2).todoCategories todoId c = _
  simp only [replacedState]
  rw [countPair_insertPairs]
  by_cases hc : c ∈ cids
  · simp [hc, countPair_delete]
  · simp [hc, countPair_delete]

/-- Witness for C4: replacing t1's categories with [c1] twice in `sampleDB`. -/
theorem replace_idempotent_witness :
    ∃ db1 db2,
      replaceTodoCategories sampleDB "t1" ["c1"] "u1" 5 = (.ok (), db1) ∧
      replaceTodoCategories db1 "t1" ["c1"] "u1" 6 = (.ok (), db2) ∧
      ∀ c, countPair db2.todoCategories "t1" c = if c ∈ ["c1"] then 1 else 0 :=
  replace_idempotent sampleDB "t1" "u1" ["c1"] 5 6
    { id := "t1", user_id := "u1", title := "Buy milk", description := none,
      is_completed := false, priority := 2, due_date := some 100,
      created_at := 0, updated_at := 0 }
    (by decide) (by decide)

/-- C10.  Replace-categories with the empty list: for a todo owned by the
user, `replaceTodoCategories` with `[]` succeeds (the empty list is not an
error, and the category-ownership check inside `addCategoriesToTodo` is
skipped entirely — the result holds for every state, even one in which the
user owns no categories at all), and afterwards the todo has zero
association rows while todos and categories are untouched. -/
theorem replace_empty_clears (db : DB) (todoId userId : String) (now : Int) (t : Todo)
    (hTodo : getTodoById db todoId userId = some t) :
    replaceTodoCategories db todoId [] userId now = (.ok (), replacedState db todoId [] now) ∧
    (replacedState db todoId [] now).todoCategories.filter (fun tc => tc.todo_id == todoId) = [] ∧
    (replacedState db todoId [] now).todos = db.todos ∧
    (replacedState db todoId [] now).categories = db.categories := by
  refine ⟨replace_ok db todoId userId [] now t hTodo (by simp), ?_, rfl, rfl⟩
  have hred : (replacedState db todoId [] now).todoCategories
      = db.todoCategories.filter (fun tc => !(tc.todo_id == todoId)) := rfl
  rw [hred]
  refine List.filter_eq_nil_iff.mpr ?_
  intro a ha
  obtain ⟨-, hne⟩ := List.mem_filter.mp ha
  simp only [Bool.not_eq_true'] at hne
  simp [hne]

/-- Witness for C10: clearing t1's categories in `sampleDB`. -/
theorem replace_empty_clears_witness :
    replaceTodoCategories sampleDB "t1" [] "u1" 7 = (.ok (), replacedState sampleDB "t1" [] 7) ∧
    (replacedState sampleDB "t1" [] 7).todoCategories.filter (fun tc => tc.todo_id == "t1") = [] ∧
    (replacedState sampleDB "t1" [] 7).todos = sampleDB.todos ∧
    (replacedState sampleDB "t1" [] 7).categories = sampleDB.categories :=
  replace_empty_clears sampleDB "t1" "u1" 7
    { id := "t1", user_id := "u1", title := "Buy milk", description := none,
      is_completed := false, priority := 2, due_date := some 100,
      created_at := 0, updated_at := 0 }
    (by decide)

/-- C7.  Deleting a category owned by the user succeeds, removes exactly the
matching category rows and every association row referencing the category
id (the schema's cascade), and leaves the todos table — every todo and all
of its fields — completely unchanged. -/
theorem deleteCategory_cascade (db : DB) (c : Category) (userId : String)
    (hmem : c ∈ db.categories) (hown : c.user_id = userId) :
    (deleteCategory db c.id userId).1 = true ∧
    (deleteCategory db c.id userId).2.todos = db.todos ∧
    (deleteCategory db c.id userId).2.todoCategories
      = db.todoCategories.filter (fun tc => !(tc.category_id == c.id)) ∧
    (deleteCategory db c.id userId).2.categories
      = db.categories.filter (fun cc => !(catMatch c.id userId cc)) := by
  have hcmatch : catMatch c.id userId c = true := by simp [catMatch, hown]
  have hcfil : c ∈ db.categories.filter (catMatch c.id userId) :=
    List.mem_filter.mpr ⟨hmem, hcmatch⟩
  have hids : ∀ y ∈ (db.categories.filter (catMatch c.id userId)).map Category.id,
      y = c.id := by
    intro y hy
    obtain ⟨cc, hcc, hyy⟩ := List.mem_map.mp hy
    obtain ⟨-, hm⟩ := List.mem_filter.mp hcc
    simp only [catMatch, Bool.and_eq_true, beq_iff_eq] at hm
    rw [← hyy]
    exact hm.1
  have hcontains : ∀ x,
      ((db.categories.filter (catMatch c.id userId)).map Category.id).contains x
        = (x == c.id) := by
    intro x
    by_cases hx : x = c.id
    · have hin : x ∈ (db.categories.filter (catMatch c.id userId)).map Category.id := by
        rw [hx]
        exact List.mem_map.mpr ⟨c, hcfil, rfl⟩
      simp only [hx, beq_self_eq_true]
      simp
      exact ⟨c, ⟨hmem, hcmatch⟩, rfl⟩
    · have hout : x ∉ (db.categories.filter (catMatch c.id userId)).map Category.id :=
        fun hmm => hx (hids x hmm)
      simp [hout, hx]
  refine ⟨?_, rfl, ?_, rfl⟩
  · have hne : db.categories.filter (catMatch c.id userId) ≠ [] :=
      List.ne_nil_of_mem hcfil
    simp [deleteCategory, List.length_pos, hne]
  · show db.todoCategories.filter _ = _
    exact List.filter_congr (fun tc _ => by rw [hcontains tc.category_id])

/-- The spec's cascade scenario: user u1 owns three todos all tagged with
the single category c1. -/
def cascadeDB : DB :=
  { todos :=
      [ { id := "t1", user_id := "u1", title := "A", description := none
          is_completed := false, priority := 1, due_date := none
          created_at := 0, updated_at := 0 }
      , { id := "t2", user_id := "u1", title := "B", description := none
          is_completed := true, priority := 2, due_date := some 5
          created_at := 1, updated_at := 1 }
      , { id := "t3", user_id := "u1", title := "C", description := none
          is_completed := false, priority := 3, due_date := none
          created_at := 2, updated_at := 2 } ]
    categories :=
      [ { id := "c1", user_id := "u1", name := "Tag", color := "#00ff00", created_at := 0 } ]
    todoCategories :=
      [ { todo_id := "t1", category_id := "c1", created_at := 0 }
      , { todo_id := "t2", category_id := "c1", created_at := 0 }
      , { todo_id := "t3", category_id := "c1", created_at := 0 } ] }

/-- Witness for C7: deleting a category attached to three todos removes the
category row and all three association rows and leaves the three todos
untouched. -/
theorem deleteCategory_cascade_witness :
    (deleteCategory cascadeDB "c1" "u1").1 = true ∧
    (deleteCategory cascadeDB "c1" "u1").2.todos = cascadeDB.todos ∧
    (deleteCategory cascadeDB "c1" "u1").2.todoCategories
      = cascadeDB.todoCategories.filter (fun tc => !(tc.category_id == "c1")) ∧
    (deleteCategory cascadeDB "c1" "u1").2.categories
      = cascadeDB.categories.filter (fun cc => !(catMatch "c1" "u1" cc)) :=
  deleteCategory_cascade cascadeDB
    { id := "c1", user_id := "u1", name := "Tag", color := "#00ff00", created_at := 0 }
    "u1" (by decide) (by decide)

/-- C6 counterexample.  A thrown `Error` whose message matches none of the
known classification patterns produces a 500 whose body carries the raw
underlying message itself — `errorResponse(error.message, 500)` — not a
generic description, refuting the claim that only a generic description is
ever returned. -/
theorem handleError_counterexample :
    handleError (.error rawDbMessage)
      = { error := rawDbMessage, code := 500, validation := [] } ∧
    strContains rawDbMessage "not found" = false ∧
    strContains rawDbMessage "unauthorized" = false ∧
    strContains rawDbMessage "No user found" = false ∧
    strContains rawDbMessage "forbidden" = false ∧
    rawDbMessage ≠ "An unexpected error occurred" := by
  decide

/-- C6 amended.  For every thrown `Error` whose message matches none of the
known classification patterns, `handleError` produces a 500 response whose
body echoes the error's own message verbatim; only a non-`Error` throwable
gets the generic "An unexpected error occurred" body.  (In the query layer
every database failure is first re-thrown with a fixed "Failed to ..."
message, so raw database internals are shielded on that path — but the
handler itself does not genericize unmatched messages.) -/
theorem handleError_unmatched_echoes (msg : String)
    (h1 : strContains msg "not found" = false)
    (h2 : strContains msg "unauthorized" = false)
    (h3 : strContains msg "No user found" = false)
    (h4 : strContains msg "forbidden" = false) :
    handleError (.error msg) = { error := msg, code := 500, validation := [] } ∧
    handleError .other = { error := "An unexpected error occurred", code := 500, validation := [] } := by
  refine ⟨?_, rfl⟩
  simp [handleError, h1, h2, h3, h4]

/-- Witness for C6 amended at the concrete raw driver message. -/
theorem handleError_unmatched_echoes_witness :
    handleError (.error rawDbMessage)
      = { error := rawDbMessage, code := 500, validation := [] } ∧
    handleError .other
      = { error := "An unexpected error occurred", code := 500, validation := [] } :=
  handleError_unmatched_echoes rawDbMessage (by decide) (by decide) (by decide) (by decide)

/-- A PATCH body with no recognized field is the all-absent record. -/
theorem providedCount_zero {b : UpdateBody} (h : providedCount b = 0) :
    b = {} := by
  obtain ⟨t, d, p, dd, ic, ci⟩ := b
  simp only [providedCount] at h
  cases t <;> cases d <;> cases p <;> cases dd <;> cases ic <;> cases ci <;> simp_all

/-- C8 counterexample.  A PATCH with an empty body against an id that does
not exist (or is owned by someone else) returns 404 "Todo not found": the
handler performs the `getTodoById` ownership read before parsing the body,
so the "at least one field" validation failure is not produced before any
query-layer call. -/
theorem patch_empty_body_counterexample :
    PATCH sampleDB "missing" "u1" {} 50
      = (.failure { error := "Todo not found", code := 404 }, sampleDB) := by
  decide

/-- C8 amended.  For every PATCH payload with no recognized field: when the
todo exists and is owned by the caller, validation fails with 400
"Validation failed" carrying the "At least one field must be provided for
update" issue, and the state is unchanged; the handler's `getTodoById`
ownership read runs before validation, so for an absent or foreign id the
reply is 404 "Todo not found" (validation never runs) — the state is
unchanged in both cases, and no mutating query-layer call happens. -/
theorem patch_no_field (db : DB) (idStr userId : String) (body : UpdateBody) (now : Int)
    (hEmpty : providedCount body = 0) :
    ((getTodoById db idStr userId).isSome →
      PATCH db idStr userId body now
        = (.failure ⟨"Validation failed", 400,
            [("", "At least one field must be provided for update")]⟩, db)) ∧
    (getTodoById db idStr userId = none →
      PATCH db idStr userId body now
        = (.failure { error := "Todo not found", code := 404 }, db)) := by
  have hb : body = {} := providedCount_zero hEmpty
  subst hb
  have hparse : updateTodoSchemaParse {}
      = .error (.zodError [("", "At least one field must be provided for update")]) := by
    decide
  constructor
  · intro hsome
    rcases hx : getTodoById db idStr userId with _ | t
    · rw [hx] at hsome
      simp at hsome
    · simp only [PATCH, hx, hparse, handleError]
  · intro hnone
    simp [PATCH, hnone]

/-- Witness for C8 amended: empty body against the existing todo t1. -/
theorem patch_no_field_witness :
    ((getTodoById sampleDB "t1" "u1").isSome →
      PATCH sampleDB "t1" "u1" {} 50
        = (.failure ⟨"Validation failed", 400,
            [("", "At least one field must be provided for update")]⟩, sampleDB)) ∧
    (getTodoById sampleDB "t1" "u1" = none →
      PATCH sampleDB "t1" "u1" {} 50
        = (.failure { error := "Todo not found", code := 404 }, sampleDB)) :=
  patch_no_field sampleDB "t1" "u1" {} 50 (by decide)

/-- A catch block keeps the state reached by its body. -/
theorem catchWrap_snd (msg : String) (p : Except String Unit × DB) :
    (catchWrap msg p).2 = p.2 := by
  rcases p with ⟨e, d⟩
  cases e <;> rfl

/-- A catch block either succeeds or fails with its own generic message. -/
theorem catchWrap_fst (msg : String) (p : Except String Unit × DB) :
    (catchWrap msg p).1 = .ok () ∨ (catchWrap msg p).1 = .error msg := by
  rcases p with ⟨e, d⟩
  cases e <;> simp [catchWrap]

/-- `addCategoriesToTodo` never touches the todos table. -/
theorem addCategoriesToTodo_todos (db : DB) (todoId : String) (cids : List String)
    (userId : String) (now : Int) :
    (addCategoriesToTodo db todoId cids userId now).2.todos = db.todos := by
  unfold addCategoriesToTodo
  rw [catchWrap_snd]
  rcases h : getTodoById db todoId userId with _ | t
  · simp [h]
  · simp only [h]
    split <;> rfl

/-- `replaceTodoCategories` never touches the todos table. -/
theorem replace_todos_eq (db : DB) (todoId : String) (cids : List String)
    (userId : String) (now : Int) :
    (replaceTodoCategories db todoId cids userId now).2.todos = db.todos := by
  unfold replaceTodoCategories
  rw [catchWrap_snd]
  rcases h : getTodoById db todoId userId with _ | t
  · simp [h]
  · simp only [h]
    split
    · rw [addCategoriesToTodo_todos]
    · rfl

/-- The only failure `replaceTodoCategories` can surface is its catch
block's generic message. -/
theorem replace_fst_cases (db : DB) (todoId : String) (cids : List String)
    (userId : String) (now : Int) :
    (replaceTodoCategories db todoId cids userId now).1 = .ok ()
      ∨ (replaceTodoCategories db todoId cids userId now).1
          = .error "Failed to replace todo categories" := by
  unfold replaceTodoCategories
  exact catchWrap_fst _ _

/-- When the past-due rejection does not fire, POST inserts exactly one new
todo row and can only fail (through the category replacement) with a 500. -/
theorem post_no_reject (db : DB) (userId : String) (body : CreateBody)
    (v : ValidCreate) (now : Int) (newId : String)
    (hParse : createTodoSchemaParse body = .ok v)
    (hnd : (match v.dueDate with
            | some d => decide (d < now)
            | none => false) = false) :
    (POST db userId body now newId).2.todos = db.todos ++ [postTodo userId v now newId] ∧
    ∀ e, (POST db userId body now newId).1 = .failure e → e.code = 500 := by
  have hcreate : createTodo db
      { user_id := userId, title := v.title, description := descriptionOrNull v.description
        priority := priorityOrDefault v.priority, due_date := v.dueDate, is_completed := false }
      newId now
      = (postTodo userId v now newId,
         { db with todos := db.todos ++ [postTodo userId v now newId] }) := rfl
  have hid : (postTodo userId v now newId).id = newId := rfl
  simp only [POST, hParse]
  rw [if_neg (by simp [hnd])]
  simp only [hcreate, hid]
  rcases hci : v.categoryIds with _ | cids
  · simp only [hci]
    rcases hgt : getTodoWithCategories
        { db with todos := db.todos ++ [postTodo userId v now newId] } newId userId
        with _ | twc <;>
      simp only [hgt] <;>
      exact ⟨trivial, fun e he => nomatch he⟩
  · simp only [hci]
    by_cases hl : cids.length > 0
    · rw [if_pos hl]
      rcases hre : replaceTodoCategories
          { db with todos := db.todos ++ [postTodo userId v now newId] }
          newId cids userId now with ⟨e1, db2⟩
      have htodos : db2.todos = db.todos ++ [postTodo userId v now newId] := by
        have h2 := replace_todos_eq
          { db with todos := db.todos ++ [postTodo userId v now newId] } newId cids userId now
        rw [hre] at h2
        simpa using h2
      cases e1 with
      | error msg =>
        have hfst := replace_fst_cases
          { db with todos := db.todos ++ [postTodo userId v now newId] } newId cids userId now
        rw [hre] at hfst
        have hmsg : msg = "Failed to replace todo categories" := by simpa using hfst
        subst hmsg
        refine ⟨htodos, ?_⟩
        intro e he
        have he' : HandlerResponse.failure
            (handleError (.error "Failed to replace todo categories")) = .failure e := he
        injection he' with h
        rw [← h]
        decide
      | ok u =>
        rcases hgt : getTodoWithCategories db2 newId userId with _ | twc <;>
          simp only [hgt] <;>
          exact ⟨htodos, fun e he => nomatch he⟩
    · rw [if_neg hl]
      rcases hgt : getTodoWithCategories
          { db with todos := db.todos ++ [postTodo userId v now newId] } newId userId
          with _ | twc <;>
        simp only [hgt] <;>
        exact ⟨trivial, fun e he => nomatch he⟩

/-- C5.  For a creation request that passes `createTodoSchema`, POST fails
with a 400 ("Due date cannot be in the past") exactly when a due date is
supplied that is strictly before now; and when no due date is supplied the
todo row is always inserted, whatever the current time (any later failure
of the category replacement is a 500, not a 400, and happens after the
insert). -/
theorem post_due_date_rule (db : DB) (userId : String) (body : CreateBody)
    (v : ValidCreate) (now : Int) (newId : String)
    (hParse : createTodoSchemaParse body = .ok v) :
    ((∃ e, (POST db userId body now newId).1 = .failure e ∧ e.code = 400)
      ↔ ∃ d, v.dueDate = some d ∧ d < now) ∧
    (v.dueDate = none →
      (POST db userId body now newId).2.todos
        = db.todos ++ [postTodo userId v now newId]) := by
  rcases hdd : v.dueDate with _ | d
  · have hnd : (match v.dueDate with
        | some d => decide (d < now)
        | none => false) = false := by
      rw [hdd]
    obtain ⟨ht, hcode⟩ := post_no_reject db userId body v now newId hParse hnd
    refine ⟨⟨?_, ?_⟩, fun _ => ht⟩
    · rintro ⟨e, he, h400⟩
      have := hcode e he
      omega
    · rintro ⟨d, hd, -⟩
      cases hd
  · by_cases hlt : d < now
    · have hheq : POST db userId body now newId
          = (.failure ⟨"Due date cannot be in the past", 400, []⟩, db) := by
        simp only [POST, hParse]
        rw [if_pos (by rw [hdd]; simpa using hlt)]
      refine ⟨⟨fun _ => ⟨d, rfl, hlt⟩, fun _ => ?_⟩, fun h0 => ?_⟩
      · exact ⟨⟨"Due date cannot be in the past", 400, []⟩, by rw [hheq], rfl⟩
      · cases h0
    · have hnd : (match v.dueDate with
          | some d => decide (d < now)
          | none => false) = false := by
        rw [hdd]
        simpa using hlt
      obtain ⟨ht, hcode⟩ := post_no_reject db userId body v now newId hParse hnd
      refine ⟨⟨?_, ?_⟩, fun h0 => ?_⟩
      · rintro ⟨e, he, h400⟩
        have := hcode e he
        omega
      · rintro ⟨d2, hd2, hlt2⟩
        injection hd2 with hd3
        subst hd3
        exact absurd hlt2 hlt
      · cases h0

/-- Witness for C5: a valid creation request with no due date at time 0. -/
theorem post_due_date_rule_witness :
    ((∃ e, (POST sampleDB "u1" { title := "X" } 0 "t9").1 = .failure e ∧ e.code = 400)
      ↔ ∃ d, (ValidCreate.mk "X" none none none none).dueDate = some d ∧ d < 0) ∧
    ((ValidCreate.mk "X" none none none none).dueDate = none →
      (POST sampleDB "u1" { title := "X" } 0 "t9").2.todos
        = sampleDB.todos ++ [postTodo "u1" (ValidCreate.mk "X" none none none none) 0 "t9"]) :=
  post_due_date_rule sampleDB "u1" { title := "X" }
    (ValidCreate.mk "X" none none none none) 0 "t9" (by decide)

/-- Membership is invariant under the ORDER BY model. -/
theorem mem_sortTodos {fld : SortField} {dir : SortDir} {l : List Todo} {x : Todo} :
    x ∈ sortTodos fld dir l ↔ x ∈ l :=
  List.mem_insertionSort _

/-- Every row passing the conjunction of `getUserTodos` conditions is owned
by the requesting user. -/
theorem todoCond_user {u : String} {f : TodoFilters} {t : Todo}
    (h : todoCond u f t = true) : t.user_id = u := by
  simp only [todoCond, Bool.and_eq_true, beq_iff_eq] at h
  exact h.1.1.1

/-- Unfolding of `getUserTodos` as select-sort-then-category-intersect. -/
theorem getUserTodos_eq (db : DB) (userId : String) (f : TodoFilters)
    (sort : Option SortSpec) :
    getUserTodos db userId f sort
      = (match f.categoryId with
         | none => sortTodos (sortFieldOf sort) (sortDirOf sort)
             (db.todos.filter (todoCond userId f))
         | some cid =>
           if cid == "" then
             sortTodos (sortFieldOf sort) (sortDirOf sort)
               (db.todos.filter (todoCond userId f))
           else
             (sortTodos (sortFieldOf sort) (sortDirOf sort)
               (db.todos.filter (todoCond userId f))).filter
               (fun t => (((db.todoCategories.filter fun tc => tc.category_id == cid).map
                 TodoCategory.todo_id).contains t.id))) := by
  cases sort with
  | none => rfl
  | some s => rfl

/-- C9.  The category filter of `getUserTodos` performs no ownership check
on the category id, yet for every user, every filter combination and every
category id whatsoever (foreign or non-existent), each returned todo is
still owned by the requesting user, and the returned sequence is an
order-preserving subsequence of the sorted, category-unfiltered result. -/
theorem getUserTodos_category_filter (db : DB) (userId : String) (f : TodoFilters)
    (sort : Option SortSpec) :
    (∀ t ∈ getUserTodos db userId f sort, t.user_id = userId) ∧
    (getUserTodos db userId f sort).Sublist
      (getUserTodos db userId { f with categoryId := none } sort) := by
  have hnone : getUserTodos db userId { f with categoryId := none } sort
      = sortTodos (sortFieldOf sort) (sortDirOf sort)
          (db.todos.filter (todoCond userId f)) := by
    rw [getUserTodos_eq]
    rfl
  constructor
  · intro t ht
    rw [getUserTodos_eq] at ht
    have hbase : t ∈ db.todos.filter (todoCond userId f) := by
      rcases hcid : f.categoryId with _ | cid
      · rw [hcid] at ht
        exact mem_sortTodos.mp ht
      · rw [hcid] at ht
        dsimp only at ht
        by_cases hemp : (cid == "") = true
        · rw [if_pos hemp] at ht
          exact mem_sortTodos.mp ht
        · rw [if_neg hemp] at ht
          exact mem_sortTodos.mp (List.mem_filter.mp ht).1
    exact todoCond_user (List.mem_filter.mp hbase).2
  · rw [getUserTodos_eq, hnone]
    rcases hcid : f.categoryId with _ | cid
    · exact List.Sublist.refl _
    · dsimp only
      by_cases hemp : (cid == "") = true
      · rw [if_pos hemp]
      · rw [if_neg hemp]
        exact List.filter_sublist _

end TodoApp
